import Mathlib

/-!
Verification of the round lifecycle and aggregation engine of the
`pallet-chainlink-feed` module (`src/pallet-chainlink-feed/src/lib.rs`).

The pallet is embedded shallowly: the concrete mock-runtime instantiation is
used (`AccountId = u64`, `FeedId = u32`, `RoundId = u32`, `Value = u64`,
`Balance = u64`, `BlockNumber = u64`), all machine integers are modelled as
`Nat` with explicit bounds where the source uses `checked_add` /
`saturating_add` / `saturating_sub`. Storage maps are association lists with
shadowing inserts. Every dispatchable is a function `State → ... → State ×
Option Error` following the imperative trace: a failure returns the state as
written up to the failure point, and `with_transaction_result` is modelled
explicitly by discarding the body's state on error (Substrate of this vintage
does not roll back storage on dispatch error, which is why the source wraps
bodies in `with_transaction_result`).
-/

namespace ChainlinkFeed

/-- Maximum of the value domain (`u64::MAX`; `T::Value = u64` in the mock runtime). -/
def VMAX : Nat := 2 ^ 64 - 1

/-- Maximum of the round-id domain (`u32::MAX`; `T::RoundId = u32`). -/
def RMAX : Nat := 2 ^ 32 - 1

/-- Maximum of the balance domain (`u64::MAX`; `Balance = u64`). -/
def BMAX : Nat := 2 ^ 64 - 1

/-- `saturating_add` on the value domain. -/
def satAdd (a b : Nat) : Nat := min (a + b) VMAX

/-- `checked_add` on round ids: `none` models arithmetic overflow. -/
def checkedAddR (a b : Nat) : Option Nat :=
  if a + b ≤ RMAX then some (a + b) else none

/-- `checked_add` on balances: `none` models arithmetic overflow. -/
def checkedAddB (a b : Nat) : Option Nat :=
  if a + b ≤ BMAX then some (a + b) else none

/-- `median` from `lib.rs`: sort ascending; for odd length return the middle
element; for even length return the saturating sum of the two middle elements
divided by two (integer truncation). -/
def median (numbers : List Nat) : Nat :=
  let sorted := numbers.insertionSort (· ≤ ·)
  let mid := numbers.length / 2
  if numbers.length % 2 = 0 then
    satAdd (sorted.getD (mid - 1) 0) (sorted.getD mid 0) / 2
  else
    sorted.getD mid 0

/-- `median` with the Rust slice indexing made explicit: the even branch reads
`numbers[mid - 1]` and `numbers[mid]`, the odd branch reads `numbers[mid]`;
`none` models the panic when `mid - 1` underflows (empty slice) or an index is
out of bounds. -/
def medianChecked (numbers : List Nat) : Option Nat :=
  let sorted := numbers.insertionSort (· ≤ ·)
  let mid := numbers.length / 2
  if numbers.length % 2 = 0 then
    if 0 < mid ∧ mid < sorted.length then
      some (satAdd (sorted.getD (mid - 1) 0) (sorted.getD mid 0) / 2)
    else none
  else
    if mid < sorted.length then some (sorted.getD mid 0) else none

/-- Minimum of a list of naturals (`0` for the empty list). -/
def listMin : List Nat → Nat
  | [] => 0
  | [a] => a
  | a :: b :: t => min a (listMin (b :: t))

/-- Maximum of a list of naturals (`0` for the empty list). -/
def listMax : List Nat → Nat
  | [] => 0
  | a :: t => max a (listMax t)

/-- `FeedConfig` storage record. -/
structure FeedConfig where
  owner : Nat
  pending_owner : Option Nat
  submission_value_bounds : Nat × Nat
  submission_count_bounds : Nat × Nat
  payment_amount : Nat
  timeout : Nat
  decimals : Nat
  description : List Nat
  restart_delay : Nat
  reporting_round : Nat
  latest_round : Nat
  first_valid_round : Option Nat
  oracle_count : Nat
deriving DecidableEq

/-- `Round` storage record (user-facing round data). -/
structure Round where
  started_at : Nat
  answer : Option Nat
  updated_at : Option Nat
  answered_in_round : Option Nat
deriving DecidableEq

/-- `RoundDetails` storage record (operator-facing round data). -/
structure RoundDetails where
  submissions : List Nat
  submission_count_bounds : Nat × Nat
  payment_amount : Nat
  timeout : Nat
deriving DecidableEq

/-- `OracleMeta` storage record. -/
structure OracleMeta where
  withdrawable : Nat
  admin : Nat
  pending_admin : Option Nat
deriving DecidableEq

/-- `OracleStatus` storage record. -/
structure OracleStatus where
  starting_round : Nat
  ending_round : Option Nat
  last_reported_round : Option Nat
  last_started_round : Option Nat
  latest_submission : Option Nat
deriving DecidableEq

/-- `Requester` storage record. -/
structure Requester where
  delay : Nat
  last_started_round : Option Nat
deriving DecidableEq

/-- Association-list lookup (first binding wins). -/
def mlookup {κ α : Type} [DecidableEq κ] (k : κ) : List (κ × α) → Option α
  | [] => none
  | (k', v) :: t => if k = k' then some v else mlookup k t

/-- Map insert: shadowing cons. -/
def minsert {κ α : Type} [DecidableEq κ] (k : κ) (v : α) (m : List (κ × α)) :
    List (κ × α) :=
  (k, v) :: m

/-- Map removal: drop every binding of the key. -/
def mremove {κ α : Type} [DecidableEq κ] (k : κ) : List (κ × α) → List (κ × α)
  | [] => []
  | p :: t => if p.1 = k then mremove k t else p :: mremove k t

/-- The whole storage of the pallet, together with the free and reserved
balance of the fund account (`T::ModuleId` account) used by
`T::Currency::reserve`. -/
structure State where
  feeds : List (Nat × FeedConfig)
  rounds : List ((Nat × Nat) × Round)
  details : List ((Nat × Nat) × RoundDetails)
  oracles : List (Nat × OracleMeta)
  oracleStati : List ((Nat × Nat) × OracleStatus)
  requesters : List ((Nat × Nat) × Requester)
  fundFree : Nat
  fundReserved : Nat
deriving DecidableEq

/-- The dispatch errors reachable from the operations modelled here.
`ReserveFailed` stands for the `DispatchError` returned by
`T::Currency::reserve` when the fund account's free balance is too low. -/
inductive Error where
  | Overflow
  | NotOracle
  | OracleNotEnabled
  | OracleDisabled
  | ReportingOrder
  | FeedNotFound
  | RoundNotFound
  | RoundNotSupersedable
  | OracleNotFound
  | NotAcceptingSubmissions
  | SubmissionBelowMinimum
  | SubmissionAboveMaximum
  | CannotRequestRoundYet
  | NotAuthorizedRequester
  | CannotPruneRoundZero
  | NothingToPrune
  | NotFeedOwner
  | ReserveFailed
deriving DecidableEq

/-- `timed_out` from `lib.rs`: a round is timed out iff it has a positive
`started_at`, a positive details `timeout`, and `started_at + timeout` is less
than the current block number. (The source's `checked_add().expect(..)` cannot
overflow in the `Nat` model; the source treats overflow there as a fatal
invariant violation.) -/
def timed_out (σ : State) (feed round_id now : Nat) : Bool :=
  let started_at := ((mlookup (feed, round_id) σ.rounds).map Round.started_at).getD 0
  let timeout := ((mlookup (feed, round_id) σ.details).map RoundDetails.timeout).getD 0
  decide (0 < started_at) && decide (0 < timeout) && decide (started_at + timeout < now)

/-- `close_timed_out_round` from `lib.rs`. The source loads the previous and
the timed-out `Round` records, mutates a local copy of the timed-out one
(copying `answer` and `answered_in_round` from the previous round and stamping
`updated_at`), but never inserts that copy back into the `Rounds` storage map;
the only persisted write is the removal of the `Details` entry. The embedding
mirrors that exactly: the local record update of the source is dead code and
therefore does not appear in the produced state. -/
def close_timed_out_round (σ : State) (feed timed_out_id _now : Nat) :
    State × Option Error :=
  let prev_id := timed_out_id - 1
  match mlookup (feed, prev_id) σ.rounds with
  | none => (σ, some .RoundNotFound)
  | some _prev_round =>
    match mlookup (feed, timed_out_id) σ.rounds with
    | none => (σ, some .RoundNotFound)
    | some _timed_out_round =>
      ({ σ with details := mremove (feed, timed_out_id) σ.details }, none)

/-- `initialize_round` from `lib.rs`: force-close the previous round if it is
timed out, then create fresh `RoundDetails` (snapshotting the feed's current
count bounds, payment and timeout) and a fresh `Round` with
`started_at = now` and all other fields default (`None`). -/
def initialize_round (σ : State) (feed_id : Nat) (feed : FeedConfig)
    (new_round_id now : Nat) : State × Option Error :=
  let prev_round_id := new_round_id - 1
  let step :=
    if timed_out σ feed_id prev_round_id now then
      close_timed_out_round σ feed_id prev_round_id now
    else (σ, none)
  match step with
  | (σ', some e) => (σ', some e)
  | (σ', none) =>
    let newDetails : RoundDetails :=
      { submissions := [], submission_count_bounds := feed.submission_count_bounds,
        payment_amount := feed.payment_amount, timeout := feed.timeout }
    let newRound : Round :=
      { started_at := now, answer := none, updated_at := none,
        answered_in_round := none }
    let σ' := { σ' with details := minsert (feed_id, new_round_id) newDetails σ'.details }
    let σ' := { σ' with rounds := minsert (feed_id, new_round_id) newRound σ'.rounds }
    (σ', none)

/-- `ensure_round_valid_for` from `lib.rs`: the oracle eligibility cascade. -/
def ensure_round_valid_for (σ : State) (feed acc round_id : Nat) : Option Error :=
  match mlookup (feed, acc) σ.oracleStati with
  | none => some .NotOracle
  | some o =>
    if ¬ o.starting_round ≤ round_id then some .OracleNotEnabled
    else if ¬ ((o.ending_round.map (fun e => decide (round_id ≤ e))).getD true = true) then
      some .OracleDisabled
    else if ¬ ((o.last_reported_round.map (fun l => decide (l < round_id))).getD true = true) then
      some .ReportingOrder
    else none

/-- The round-opening step at the top of `submit`'s transactional closure:
if the submitted round is the next round and the oracle is eligible to start
it, advance the feed's `reporting_round`, run `initialize_round` and record
`last_started_round` on the oracle's status. -/
def openStage (σ : State) (feed_id round_id now : Nat) (feed : FeedConfig)
    (oracle_status : OracleStatus) (new_round_id : Nat) (eligible_to_start : Bool) :
    State × FeedConfig × OracleStatus × Option Error :=
  if round_id = new_round_id ∧ eligible_to_start = true then
    let feed := { feed with reporting_round := new_round_id }
    match initialize_round σ feed_id feed new_round_id now with
    | (σ', some e) => (σ', feed, oracle_status, some e)
    | (σ', none) =>
      (σ', feed, { oracle_status with last_started_round := some new_round_id }, none)
  else (σ, feed, oracle_status, none)

/-- The answer-update step of `submit`'s transactional closure (after the new
submission has been appended to `details`): if the accumulated count reaches
the snapshotted minimum, recompute the median of all submissions so far,
overwrite the round's `answer`/`updated_at`/`answered_in_round`, and advance
the feed's `latest_round` (setting `first_valid_round` if unset). The source
calls `median(&mut details.submissions)`, which `sort_unstable`s the vector in
place before aggregating; the mutated `details` is returned so that the
caller's later `Details::insert` persists the sorted list. -/
def answerStage (σ : State) (feed : FeedConfig) (feed_id round_id now : Nat)
    (details : RoundDetails) : State × FeedConfig × RoundDetails × Option Error :=
  if details.submission_count_bounds.1 ≤ details.submissions.length then
    -- median(&mut ..) sorts the slice in place before the round lookup
    let details := { details with
                      submissions := details.submissions.insertionSort (· ≤ ·) }
    let new_answer := median details.submissions
    match mlookup (feed_id, round_id) σ.rounds with
    | none => (σ, feed, details, some .RoundNotFound)
    | some round =>
      let round := { round with
                      answer := some new_answer,
                      updated_at := some now,
                      answered_in_round := some round_id }
      let σ := { σ with rounds := minsert (feed_id, round_id) round σ.rounds }
      let fvr := if feed.first_valid_round = none then some round_id
                 else feed.first_valid_round
      let feed := { feed with latest_round := round_id, first_valid_round := fvr }
      (σ, feed, details, none)
  else (σ, feed, details, none)

/-- The closure passed to `with_transaction_result` inside `submit`. Storage
writes are threaded through the state, so a failure returns the state as
written up to the failure point (the wrapper in `submit` then discards it). -/
def submitBody (σ : State) (oracle feed_id round_id submission now : Nat)
    (feed : FeedConfig) (oracle_status : OracleStatus) (new_round_id : Nat)
    (eligible_to_start : Bool) : State × Option Error :=
  -- initialize the round if conditions are met
  match openStage σ feed_id round_id now feed oracle_status new_round_id
      eligible_to_start with
  | (σ, _, _, some e) => (σ, some e)
  | (σ, feed, oracle_status, none) =>
    -- record submission (`Details::take`)
    match mlookup (feed_id, round_id) σ.details with
    | none => (σ, some .NotAcceptingSubmissions)
    | some details =>
      let σ := { σ with details := mremove (feed_id, round_id) σ.details }
      let details := { details with submissions := details.submissions ++ [submission] }
      let oracle_status := { oracle_status with
        last_reported_round := some round_id, latest_submission := some submission }
      let σ := { σ with oracleStati := minsert (feed_id, oracle) oracle_status σ.oracleStati }
      -- update round answer (sorts `details.submissions` in place when run)
      match answerStage σ feed feed_id round_id now details with
      | (σ, _, _, some e) => (σ, some e)
      | (σ, feed, details, none) =>
        -- update oracle withdrawable
        let payment := details.payment_amount
        if payment ≤ σ.fundFree then
          let σ := { σ with fundFree := σ.fundFree - payment,
                            fundReserved := σ.fundReserved + payment }
          match mlookup oracle σ.oracles with
          | none => (σ, some .OracleNotFound)
          | some oracle_meta =>
            match checkedAddB oracle_meta.withdrawable payment with
            | none => (σ, some .Overflow)
            | some w =>
              let σ := { σ with
                oracles := minsert oracle { oracle_meta with withdrawable := w } σ.oracles }
              let σ := { σ with feeds := minsert feed_id feed σ.feeds }
              -- delete the details if the maximum count has been reached
              let σ := if details.submissions.length < details.submission_count_bounds.2 then
                  { σ with details := minsert (feed_id, round_id) details σ.details }
                else σ
              (σ, none)
        else (σ, some .ReserveFailed)

/-- `submit` from `lib.rs`: eligibility cascade, value bounds, round-opening
eligibility, then the transactional body. On any error the pre-transaction
part has performed no writes and the transactional wrapper discards the
body's writes, so the original state is returned. -/
def submit (σ : State) (oracle feed_id round_id submission now : Nat) :
    State × Option Error :=
  match ensure_round_valid_for σ feed_id oracle round_id with
  | some e => (σ, some e)
  | none =>
  match mlookup feed_id σ.feeds with
  | none => (σ, some .FeedNotFound)
  | some feed =>
    if ¬ feed.submission_value_bounds.1 ≤ submission then (σ, some .SubmissionBelowMinimum)
    else if ¬ submission ≤ feed.submission_value_bounds.2 then (σ, some .SubmissionAboveMaximum)
    else match checkedAddR feed.reporting_round 1 with
    | none => (σ, some .Overflow)
    | some new_round_id =>
      match mlookup (feed_id, oracle) σ.oracleStati with
      | none => (σ, some .NotOracle)
      | some oracle_status =>
        match checkedAddR (oracle_status.last_started_round.getD 0) feed.restart_delay with
        | none => (σ, some .Overflow)
        | some t1 =>
        match checkedAddR t1 1 with
        | none => (σ, some .Overflow)
        | some next_eligible_round =>
          let eligible_to_start :=
            decide (next_eligible_round ≤ round_id)
              || decide (oracle_status.last_started_round = none)
          -- with_transaction_result
          match submitBody σ oracle feed_id round_id submission now feed oracle_status
              new_round_id eligible_to_start with
          | (_, some e) => (σ, some e)
          | (σ', none) => (σ', none)

/-- `request_new_round` from `lib.rs` (the dispatchable, requester-gated
variant). -/
def request_new_round (σ : State) (sender feed_id now : Nat) : State × Option Error :=
  match mlookup (feed_id, sender) σ.requesters with
  | none => (σ, some .NotAuthorizedRequester)
  | some requester =>
  match mlookup feed_id σ.feeds with
  | none => (σ, some .FeedNotFound)
  | some feed =>
    let check : Option Bool :=
      if feed.reporting_round = 0 then some true
      else match mlookup (feed_id, feed.reporting_round) σ.rounds with
        | none => none
        | some round => some round.updated_at.isSome
    match check with
    | none => (σ, some .RoundNotFound)
    | some is_first_round_or_updated =>
      if ¬ (is_first_round_or_updated = true
          ∨ timed_out σ feed_id feed.reporting_round now = true) then
        (σ, some .RoundNotSupersedable)
      else match checkedAddR feed.reporting_round 1 with
      | none => (σ, some .Overflow)
      | some new_round =>
        let last_started := requester.last_started_round.getD 0
        match checkedAddR last_started requester.delay with
        | none => (σ, some .Overflow)
        | some next_allowed_round =>
          if ¬ (requester.last_started_round = none ∨ next_allowed_round < new_round) then
            (σ, some .CannotRequestRoundYet)
          else
            -- with_transaction_result
            match initialize_round σ feed_id feed new_round now with
            | (_, some e) => (σ, some e)
            | (σ', none) =>
              let requester := { requester with last_started_round := some new_round }
              ({ σ' with requesters := minsert (feed_id, sender) requester σ'.requesters },
               none)

/-- The `while round < keep_round` removal loop of `prune`, with the iteration
count made explicit (`n = keep_round - round`). -/
def pruneLoop (σ : State) (feed_id lo : Nat) : Nat → State
  | 0 => σ
  | n + 1 =>
    let σ := { σ with rounds := mremove (feed_id, lo) σ.rounds,
                      details := mremove (feed_id, lo) σ.details }
    pruneLoop σ feed_id (lo + 1) n

/-- `prune` from `lib.rs`, with `T::PruningWindow` as the explicit `window`
parameter. All fallible checks precede every write, so no transactional
wrapper is needed (matching the source). -/
def prune (window : Nat) (σ : State) (sender feed_id first_to_prune keep_round : Nat) :
    State × Option Error :=
  if ¬ 0 < first_to_prune then (σ, some .CannotPruneRoundZero)
  else if ¬ first_to_prune < keep_round then (σ, some .CannotPruneRoundZero)
  else match mlookup feed_id σ.feeds with
  | none => (σ, some .FeedNotFound)
  | some feed =>
    if ¬ feed.owner = sender then (σ, some .NotFeedOwner)
    else match feed.first_valid_round with
    | none => (σ, some .NothingToPrune)
    | some first_valid_round =>
      if ¬ window < feed.latest_round - first_to_prune then (σ, some .NothingToPrune)
      else
        let keep_round := min (feed.latest_round - window) keep_round
        let σ' := pruneLoop σ feed_id first_to_prune (keep_round - first_to_prune)
        let feed := { feed with first_valid_round := some (max keep_round first_valid_round) }
        ({ σ' with feeds := minsert feed_id feed σ'.feeds }, none)

/-- The lower middle element of the ascending sort of `l`
(`sorted[l.length / 2 - 1]`). -/
def midLo (l : List Nat) : Nat :=
  (l.insertionSort (· ≤ ·)).getD (l.length / 2 - 1) 0

/-- The upper middle element of the ascending sort of `l`
(`sorted[l.length / 2]`). -/
def midHi (l : List Nat) : Nat :=
  (l.insertionSort (· ≤ ·)).getD (l.length / 2) 0

/-- The state produced by a successful `submit` that does not open a new
round, characterized explicitly: `d` is the pre-existing `RoundDetails`, `r`
the pre-existing `Round`, `om` the oracle's meta record; the new submission is
appended, the oracle status is stamped, the answer is recomputed when the
count reaches the snapshotted minimum (sorting the stored submission list in
place, as `median(&mut ..)` does), the payment is reserved and credited, and
the details entry is retained only below the snapshotted maximum. Used to
characterize `submit` in the lemmas below. -/
def submitResult (σ : State) (oracle feed_id round_id submission now : Nat)
    (feed : FeedConfig) (ost : OracleStatus) (d : RoundDetails) (r : Round)
    (om : OracleMeta) : State :=
  let newSubs := d.submissions ++ [submission]
  let sortedSubs := newSubs.insertionSort (· ≤ ·)
  let d' := { d with submissions :=
    if d.submission_count_bounds.1 ≤ newSubs.length then sortedSubs else newSubs }
  let ost' := { ost with last_reported_round := some round_id,
                         latest_submission := some submission }
  let r' := { r with answer := some (median sortedSubs), updated_at := some now,
                     answered_in_round := some round_id }
  let feed' :=
    if d.submission_count_bounds.1 ≤ newSubs.length then
      { feed with latest_round := round_id,
                  first_valid_round := if feed.first_valid_round = none
                                       then some round_id
                                       else feed.first_valid_round }
    else feed
  { σ with
      details := if newSubs.length < d.submission_count_bounds.2 then
          minsert (feed_id, round_id) d' (mremove (feed_id, round_id) σ.details)
        else mremove (feed_id, round_id) σ.details,
      oracleStati := minsert (feed_id, oracle) ost' σ.oracleStati,
      rounds := if d.submission_count_bounds.1 ≤ newSubs.length then
          minsert (feed_id, round_id) r' σ.rounds
        else σ.rounds,
      oracles := minsert oracle
        { om with withdrawable := om.withdrawable + d.payment_amount } σ.oracles,
      feeds := minsert feed_id feed' σ.feeds,
      fundFree := σ.fundFree - d.payment_amount,
      fundReserved := σ.fundReserved + d.payment_amount }

/-- The empty storage state. -/
def emptyState : State :=
  { feeds := [], rounds := [], details := [], oracles := [], oracleStati := [],
    requesters := [], fundFree := 0, fundReserved := 0 }

/-- A small concrete feed configuration: two enabled oracles (2 and 3), value
bounds `(10, 1000)`, count bounds `(1, 3)`, payment 5, timeout 10, restart
delay 0, reporting round 1. -/
def cfgSC : FeedConfig :=
  { owner := 1, pending_owner := none, submission_value_bounds := (10, 1000),
    submission_count_bounds := (1, 3), payment_amount := 5, timeout := 10,
    decimals := 5, description := [], restart_delay := 0, reporting_round := 1,
    latest_round := 0, first_valid_round := none, oracle_count := 2 }

/-- A fresh (never-reported) oracle status enabled from round 0. -/
def freshStatus : OracleStatus :=
  { starting_round := 0, ending_round := none, last_reported_round := none,
    last_started_round := none, latest_submission := none }

/-- Concrete scenario: feed 0 with `cfgSC`; round 0 is the genesis round,
round 1 was opened at block 1 and is still pending (no submissions, no
answer); oracles 2 and 3 have fresh statuses; account 9 is a requester with
delay 2. -/
def stateSC : State :=
  { feeds := [(0, cfgSC)],
    rounds := [((0, 0), { started_at := 0, answer := some 0, updated_at := some 0,
                          answered_in_round := some 0 }),
               ((0, 1), { started_at := 1, answer := none, updated_at := none,
                          answered_in_round := none })],
    details := [((0, 1), { submissions := [], submission_count_bounds := (1, 3),
                           payment_amount := 5, timeout := 10 })],
    oracles := [(2, { withdrawable := 0, admin := 4, pending_admin := none }),
                (3, { withdrawable := 0, admin := 4, pending_admin := none })],
    oracleStati := [((0, 2), freshStatus), ((0, 3), freshStatus)],
    requesters := [((0, 9), { delay := 2, last_started_round := none })],
    fundFree := 1000, fundReserved := 0 }

/-- Feed configuration for the pruning counterexample: latest round 4,
first valid round 1. -/
def cfg5 : FeedConfig :=
  { cfgSC with latest_round := 4, first_valid_round := some 1, reporting_round := 4 }

/-- State for the pruning counterexample. -/
def state5 : State := { stateSC with feeds := [(0, cfg5)] }

/-- Feed configuration for the pruning witness: latest round 8, first valid
round 1. -/
def cfg8 : FeedConfig :=
  { cfgSC with latest_round := 8, first_valid_round := some 1, reporting_round := 8 }

/-- State for the pruning witness: rounds 0 through 8 all present and
answered. -/
def state8 : State :=
  { stateSC with
      feeds := [(0, cfg8)],
      rounds := (List.range 9).map (fun r =>
        ((0, r), { started_at := r, answer := some 42, updated_at := some r,
                   answered_in_round := some r })) }

/-- Feed configuration for the requester-cooldown witness: reporting round 2. -/
def cfgR : FeedConfig := { cfgSC with reporting_round := 2 }

/-- State for the requester-cooldown witness: round 2 is answered and the
requester 9 has `delay = 2` and `last_started_round = some 1`, so the
candidate round 3 is not beyond `1 + 2`. -/
def stateR : State :=
  { stateSC with
      feeds := [(0, cfgR)],
      rounds := stateSC.rounds ++
        [((0, 2), { started_at := 1, answer := some 5, updated_at := some 1,
                    answered_in_round := some 2 })],
      requesters := [((0, 9), { delay := 2, last_started_round := some 1 })] }

/-- State where round 1 is already answered (answer 10 from one submission)
and still open; a further submission must recompute the answer. -/
def stateC10 : State :=
  { stateSC with
      rounds := [((0, 0), { started_at := 0, answer := some 0, updated_at := some 0,
                            answered_in_round := some 0 }),
                 ((0, 1), { started_at := 1, answer := some 10, updated_at := some 1,
                            answered_in_round := some 1 })],
      details := [((0, 1), { submissions := [10], submission_count_bounds := (1, 3),
                             payment_amount := 5, timeout := 10 })] }

/-- An oracle status with all gates set: enabled from round 2 to round 5,
last reported round 3. -/
def ostB : OracleStatus :=
  { starting_round := 2, ending_round := some 5, last_reported_round := some 3,
    last_started_round := none, latest_submission := none }

/-- State holding only the status `ostB` for oracle 2 on feed 0. -/
def stateC7 : State := { emptyState with oracleStati := [((0, 2), ostB)] }

@[simp]
theorem mlookup_minsert {κ α : Type} [DecidableEq κ] (k k' : κ) (v : α) (m : List (κ × α)) :
    mlookup k (minsert k' v m) = if k = k' then some v else mlookup k m := by
  simp [mlookup, minsert]

@[simp]
theorem mlookup_mremove {κ α : Type} [DecidableEq κ] (k k' : κ) (m : List (κ × α)) :
    mlookup k (mremove k' m) = if k = k' then none else mlookup k m := by
  induction m with
  | nil => simp [mlookup, mremove]
  | cons p t ih =>
    obtain ⟨kp, vp⟩ := p
    by_cases hp : kp = k'
    · subst hp
      rw [show mremove kp ((kp, vp) :: t) = mremove kp t from by simp [mremove]]
      rw [ih]
      by_cases hk : k = kp
      · simp [hk]
      · simp [mlookup, hk]
    · rw [show mremove k' ((kp, vp) :: t) = (kp, vp) :: mremove k' t from by
        simp [mremove, hp]]
      by_cases hk : k = kp
      · subst hk
        have hkk' : k ≠ k' := hp
        simp [mlookup, hkk']
      · simp [mlookup, hk, ih]

/-- C1: evaluation of the code at a failing input. In `stateSC` at block 20,
round 1 is pending and timed out (`started_at = 1`, `timeout = 10`,
`1 + 10 < 20`). Opening round 2 via `initialize_round` succeeds and removes
round 1's `RoundDetails`, but round 1's stored `Round` record is left
completely unchanged: its `answer` stays `none` and its `updated_at` stays
`none`, instead of inheriting round 0's answer (`some 0`) with
`updated_at = some 20` as the claim states — the source computes the
carried-forward record but never writes it back to storage. -/
theorem C1_timed_out_round_not_persisted :
    timed_out stateSC 0 1 20 = true ∧
    (mlookup (0, 0) stateSC.rounds).map Round.answer = some (some 0) ∧
    (initialize_round stateSC 0 cfgSC 2 20).2 = none ∧
    mlookup (0, 1) (initialize_round stateSC 0 cfgSC 2 20).1.rounds =
      some { started_at := 1, answer := none, updated_at := none,
             answered_in_round := none } ∧
    mlookup (0, 1) (initialize_round stateSC 0 cfgSC 2 20).1.details = none := by
  decide

/-- C2 counterexample: in `stateSC` at block 2, the current reporting round 1
has no answer (`updated_at = none`) and is not timed out, yet oracle 3's
`submit` for round 2 succeeds and opens round 2 (it does not fail with
`RoundNotSupersedable`): the supersedability check exists only on the
`request_new_round` path. -/
theorem C2_counterexample :
    (mlookup 0 stateSC.feeds).map FeedConfig.reporting_round = some 1 ∧
    (mlookup (0, 1) stateSC.rounds).map Round.updated_at = some none ∧
    timed_out stateSC 0 1 2 = false ∧
    (submit stateSC 3 0 2 42 2).2 = none ∧
    (mlookup (0, 2) (submit stateSC 3 0 2 42 2).1.rounds).isSome = true ∧
    (mlookup 0 (submit stateSC 3 0 2 42 2).1.feeds).map FeedConfig.reporting_round =
      some 2 := by
  decide

/-- C4 counterexample: for the even-length sequence `[VMAX, VMAX]` the
saturating sum clamps to `VMAX`, so the returned value `VMAX / 2` is strictly
below the sequence's minimum — `median` does not always lie between the
minimum and the maximum. -/
theorem C4_counterexample : median [VMAX, VMAX] < listMin [VMAX, VMAX] := by
  decide

/-- C5 counterexample: with retention window 3 and a feed whose
`latest_round = 4` and `first_valid_round = some 1`, pruning with
`first = 1, keep = 5` satisfies the claim's condition
`latest_round − first ≥ retention_window` (`4 − 1 = 3 ≥ 3`), yet the code
fails with `NothingToPrune`: the source requires the strict inequality
`latest_round − first > retention_window`. -/
theorem C5_counterexample :
    mlookup 0 state5.feeds = some cfg5 ∧
    cfg5.first_valid_round = some 1 ∧
    3 ≤ cfg5.latest_round - 1 ∧
    prune 3 state5 1 0 1 5 = (state5, some Error.NothingToPrune) := by
  decide

/-- C3: `submit` is atomic — whenever it returns an error, the returned state
is exactly the input state: the pre-transaction checks perform no writes and
the transactional wrapper discards every write of the body on failure. -/
theorem C3_submit_atomic (σ σ' : State) (oracle feed_id round_id submission now : Nat)
    (e : Error)
    (h : submit σ oracle feed_id round_id submission now = (σ', some e)) :
    σ' = σ := by
  unfold submit at h
  dsimp only at h
  repeat' split at h
  all_goals injection h with h1 h2
  all_goals first
    | exact h1.symm
    | exact Option.noConfusion h2

/-- C3 witness: on the empty state, `submit` fails with `NotOracle` and the
returned state is the empty state. -/
theorem C3_witness : (submit emptyState 2 0 1 42 0).1 = emptyState :=
  C3_submit_atomic emptyState (submit emptyState 2 0 1 42 0).1 2 0 1 42 0
    Error.NotOracle (by decide)
theorem getD_eq_get {α : Type} (l : List α) (d : α) {i : Nat} (h : i < l.length) :
    l.getD i d = l.get ⟨i, h⟩ := by
  rw [List.getD_eq_getElem?_getD, List.getElem?_eq_getElem h]
  rfl

theorem listMin_le_of_mem : ∀ {l : List Nat} {x : Nat}, x ∈ l → listMin l ≤ x
  | [a], x, h => by
    simp only [List.mem_singleton] at h
    subst h
    exact le_refl _
  | a :: b :: t, x, h => by
    rcases List.mem_cons.mp h with rfl | h'
    · exact min_le_left _ _
    · exact le_trans (min_le_right _ _) (listMin_le_of_mem h')

theorem le_listMax_of_mem : ∀ {l : List Nat} {x : Nat}, x ∈ l → x ≤ listMax l
  | a :: t, x, h => by
    rcases List.mem_cons.mp h with rfl | h'
    · exact le_max_left _ _
    · exact le_trans (le_listMax_of_mem h') (le_max_right _ _)

theorem median_insertionSort (l : List Nat) :
    median (l.insertionSort (· ≤ ·)) = median l := by
  simp only [median]
  rw [(List.sorted_insertionSort _ l).insertionSort_eq, List.length_insertionSort]

theorem medianChecked_eq_median {l : List Nat} (h : l ≠ []) :
    medianChecked l = some (median l) := by
  have hlen : (l.insertionSort (· ≤ ·)).length = l.length :=
    List.length_insertionSort _ _
  have hpos : 0 < l.length := List.length_pos.mpr h
  unfold medianChecked median
  by_cases hpar : l.length % 2 = 0
  · have h2 : 2 ≤ l.length := by omega
    have hmid : 0 < l.length / 2 := Nat.div_pos h2 (by norm_num)
    have hmidlt : l.length / 2 < l.length := Nat.div_lt_self hpos (by norm_num)
    simp [hpar, hlen, hmid, hmidlt]
  · have hmidlt : l.length / 2 < l.length := Nat.div_lt_self hpos (by norm_num)
    simp [hpar, hlen, hmidlt]

/-- C9: `median` of the empty sequence is undefined — the even-length branch's
indexing is out of bounds, modelled by `medianChecked [] = none` — but the
aggregation step in `submit` always applies `median` to the round's submission
list with the new submission already appended, which is never empty, so the
indexing is in bounds and `medianChecked` agrees with the total `median`. -/
theorem C9_median_empty_unreachable :
    medianChecked [] = none ∧
    ∀ (d : RoundDetails) (x : Nat),
      medianChecked (d.submissions ++ [x]) = some (median (d.submissions ++ [x])) := by
  refine ⟨by decide, fun d x => medianChecked_eq_median (by simp)⟩

/-- C4 amended: for any non-empty sequence whose length is odd or whose two
middle elements do not overflow on addition, `median` lies between the
sequence's minimum and maximum; for sorted odd-length input it returns the
middle element; for sorted even-length input it returns the two middle
elements' saturating sum divided by 2 with truncation. (The unrestricted
between-min-and-max statement fails when the middle sum saturates, see the
counterexample.) -/
theorem C4_median_amended :
    (∀ l : List Nat, l ≠ [] → (l.length % 2 = 1 ∨ midLo l + midHi l ≤ VMAX) →
      listMin l ≤ median l ∧ median l ≤ listMax l) ∧
    (∀ l : List Nat, l.Sorted (· ≤ ·) → l.length % 2 = 1 →
      median l = l.getD (l.length / 2) 0) ∧
    (∀ l : List Nat, l.Sorted (· ≤ ·) → l ≠ [] → l.length % 2 = 0 →
      median l = satAdd (l.getD (l.length / 2 - 1) 0) (l.getD (l.length / 2) 0) / 2) := by
  refine ⟨fun l hne hc => ?_, fun l hs hodd => ?_, fun l hs hne hpar => ?_⟩
  · have hlen : (l.insertionSort (· ≤ ·)).length = l.length :=
      List.length_insertionSort _ _
    have hpos : 0 < l.length := List.length_pos.mpr hne
    have hperm : List.Perm (l.insertionSort (· ≤ ·)) l := List.perm_insertionSort _ l
    have hmidlt : l.length / 2 < l.length := Nat.div_lt_self hpos (by norm_num)
    have hmidlt' : l.length / 2 < (l.insertionSort (· ≤ ·)).length := by omega
    have hmemHi : (l.insertionSort (· ≤ ·)).getD (l.length / 2) 0 ∈ l := by
      rw [getD_eq_get _ _ hmidlt']
      exact hperm.mem_iff.mp (List.get_mem _ _ _)
    by_cases hpar : l.length % 2 = 0
    · rcases hc with hodd | hsum
      · omega
      · have h2 : 2 ≤ l.length := by omega
        have hmid1 : l.length / 2 - 1 < (l.insertionSort (· ≤ ·)).length := by omega
        have hmemLo : (l.insertionSort (· ≤ ·)).getD (l.length / 2 - 1) 0 ∈ l := by
          rw [getD_eq_get _ _ hmid1]
          exact hperm.mem_iff.mp (List.get_mem _ _ _)
        have hab : (l.insertionSort (· ≤ ·)).getD (l.length / 2 - 1) 0 ≤
            (l.insertionSort (· ≤ ·)).getD (l.length / 2) 0 := by
          rw [getD_eq_get _ _ hmid1, getD_eq_get _ _ hmidlt']
          exact (List.sorted_insertionSort _ l).rel_get_of_le (by simp)
        have hsat : satAdd ((l.insertionSort (· ≤ ·)).getD (l.length / 2 - 1) 0)
            ((l.insertionSort (· ≤ ·)).getD (l.length / 2) 0) =
            (l.insertionSort (· ≤ ·)).getD (l.length / 2 - 1) 0 +
            (l.insertionSort (· ≤ ·)).getD (l.length / 2) 0 :=
          min_eq_left hsum
        have hminLo := listMin_le_of_mem hmemLo
        have hmaxHi := le_listMax_of_mem hmemHi
        simp only [median]
        rw [if_pos hpar, hsat]
        exact ⟨by omega, by omega⟩
    · have hminHi := listMin_le_of_mem hmemHi
      have hmaxHi := le_listMax_of_mem hmemHi
      simp only [median]
      rw [if_neg hpar]
      exact ⟨hminHi, hmaxHi⟩
  · have hpar : ¬ l.length % 2 = 0 := by omega
    simp only [median, hs.insertionSort_eq]
    rw [if_neg hpar]
  · simp only [median, hs.insertionSort_eq]
    rw [if_pos hpar]

/-- C4 witness: the amended statement instantiated at `[4, 6, 2, 7]` (even,
no overflow), the sorted odd list `[2, 4, 6]` and the sorted even list
`[2, 4]`. -/
theorem C4_median_amended_witness :
    (listMin [4, 6, 2, 7] ≤ median [4, 6, 2, 7] ∧
      median [4, 6, 2, 7] ≤ listMax [4, 6, 2, 7]) ∧
    median [2, 4, 6] = [2, 4, 6].getD ([2, 4, 6].length / 2) 0 ∧
    median [2, 4] = satAdd ([2, 4].getD ([2, 4].length / 2 - 1) 0)
      ([2, 4].getD ([2, 4].length / 2) 0) / 2 :=
  ⟨C4_median_amended.1 [4, 6, 2, 7] (by decide) (Or.inr (by decide)),
   C4_median_amended.2.1 [2, 4, 6] (by decide) (by decide),
   C4_median_amended.2.2 [2, 4] (by decide) (by decide) (by decide)⟩

theorem ensure_last_reported_blocks
    (σ : State) (feed acc r' l : Nat) (ost : OracleStatus)
    (hst : mlookup (feed, acc) σ.oracleStati = some ost)
    (hlr : ost.last_reported_round = some l) (hle : r' ≤ l) :
    ensure_round_valid_for σ feed acc r' ≠ none := by
  have hd : decide (l < r') = false := decide_eq_false (Nat.not_lt.mpr hle)
  simp only [ensure_round_valid_for, hst, hlr, Option.map_some', Option.getD_some, hd]
  repeat' split
  all_goals simp_all

theorem answerStage_oracleStati (σ : State) (f : FeedConfig) (fid rid now : Nat)
    (d : RoundDetails) :
    ((answerStage σ f fid rid now d).1).oracleStati = σ.oracleStati := by
  unfold answerStage
  dsimp only
  repeat' split
  all_goals rfl

theorem close_timed_out_round_oracleStati (σ : State) (f t n : Nat) :
    ((close_timed_out_round σ f t n).1).oracleStati = σ.oracleStati := by
  unfold close_timed_out_round
  dsimp only
  repeat' split
  all_goals rfl

theorem initialize_round_oracleStati (σ : State) (fid : Nat) (f : FeedConfig)
    (nr now : Nat) :
    ((initialize_round σ fid f nr now).1).oracleStati = σ.oracleStati := by
  unfold initialize_round
  dsimp only
  by_cases ht : timed_out σ fid (nr - 1) now = true
  · rw [if_pos ht]
    rcases hcl : close_timed_out_round σ fid (nr - 1) now with ⟨σ', e⟩
    have h1 : (close_timed_out_round σ fid (nr - 1) now).1 = σ' := by rw [hcl]
    cases e
    · dsimp only
      rw [← h1, close_timed_out_round_oracleStati]
    · dsimp only
      rw [← h1, close_timed_out_round_oracleStati]
  · rw [if_neg ht]

theorem openStage_oracleStati (σ : State) (fid rid now : Nat) (f : FeedConfig)
    (ost : OracleStatus) (nri : Nat) (el : Bool) :
    ((openStage σ fid rid now f ost nri el).1).oracleStati = σ.oracleStati := by
  unfold openStage
  dsimp only
  split
  · rcases hinit : initialize_round σ fid { f with reporting_round := nri } nri now
      with ⟨σ', e⟩
    have h1 : (initialize_round σ fid { f with reporting_round := nri } nri now).1 = σ' := by
      rw [hinit]
    cases e
    · dsimp only
      rw [← h1, initialize_round_oracleStati]
    · dsimp only
      rw [← h1, initialize_round_oracleStati]
  · rfl

theorem submitBody_ok_status
    (σ σ'' : State) (oracle feed_id round_id submission now : Nat)
    (feed : FeedConfig) (ost : OracleStatus) (nri : Nat) (el : Bool)
    (h : submitBody σ oracle feed_id round_id submission now feed ost nri el =
      (σ'', none)) :
    ∃ ost' : OracleStatus, mlookup (feed_id, oracle) σ''.oracleStati = some ost' ∧
      ost'.last_reported_round = some round_id := by
  unfold submitBody at h
  dsimp only at h
  split at h
  · exact Option.noConfusion (congrArg Prod.snd h)
  rename_i σ1 feed1 ost1 heqO
  split at h
  · exact Option.noConfusion (congrArg Prod.snd h)
  rename_i d heqD
  split at h
  · exact Option.noConfusion (congrArg Prod.snd h)
  rename_i σc feed2 d2 heqA
  split at h
  case isFalse => exact Option.noConfusion (congrArg Prod.snd h)
  split at h
  · exact Option.noConfusion (congrArg Prod.snd h)
  rename_i om heqM
  split at h
  · exact Option.noConfusion (congrArg Prod.snd h)
  rename_i w heqW
  have hA1 := congrArg Prod.fst heqA
  dsimp only at hA1
  have hOS : σc.oracleStati =
      minsert (feed_id, oracle)
        { ost1 with
            last_reported_round := some round_id,
            latest_submission := some submission } σ1.oracleStati := by
    rw [← hA1, answerStage_oracleStati]
  split at h
  all_goals
    have hX := congrArg Prod.fst h
    dsimp only at hX
    subst hX
    refine ⟨{ ost1 with
                last_reported_round := some round_id,
                latest_submission := some submission }, ?_, rfl⟩
    dsimp only
    rw [hOS]
    simp

theorem submit_ok_status
    (σ σ' : State) (oracle feed_id round_id submission now : Nat)
    (h : submit σ oracle feed_id round_id submission now = (σ', none)) :
    ∃ ost' : OracleStatus, mlookup (feed_id, oracle) σ'.oracleStati = some ost' ∧
      ost'.last_reported_round = some round_id := by
  unfold submit at h
  dsimp only at h
  repeat' split at h
  all_goals injection h with h1 h2
  all_goals first
    | exact Option.noConfusion h2
    | (subst h1; apply submitBody_ok_status <;> assumption)

/-- C7: the oracle eligibility cascade of `ensure_round_valid_for` — fails
`NotOracle` with no status, `OracleNotEnabled` when the round precedes
`starting_round`, `OracleDisabled` when `ending_round` is set and below the
round, `ReportingOrder` when `last_reported_round` is set and at least the
round, and succeeds otherwise; consequently an oracle that successfully
submitted for a round can never successfully submit again for the same or an
earlier round on the same feed. -/
theorem C7_eligibility_cascade :
    (∀ (σ : State) (feed acc round_id : Nat),
      mlookup (feed, acc) σ.oracleStati = none →
      ensure_round_valid_for σ feed acc round_id = some Error.NotOracle) ∧
    (∀ (σ : State) (feed acc round_id : Nat) (o : OracleStatus),
      mlookup (feed, acc) σ.oracleStati = some o →
      round_id < o.starting_round →
      ensure_round_valid_for σ feed acc round_id = some Error.OracleNotEnabled) ∧
    (∀ (σ : State) (feed acc round_id e : Nat) (o : OracleStatus),
      mlookup (feed, acc) σ.oracleStati = some o →
      o.starting_round ≤ round_id →
      o.ending_round = some e → e < round_id →
      ensure_round_valid_for σ feed acc round_id = some Error.OracleDisabled) ∧
    (∀ (σ : State) (feed acc round_id l : Nat) (o : OracleStatus),
      mlookup (feed, acc) σ.oracleStati = some o →
      o.starting_round ≤ round_id →
      (∀ e, o.ending_round = some e → round_id ≤ e) →
      o.last_reported_round = some l → round_id ≤ l →
      ensure_round_valid_for σ feed acc round_id = some Error.ReportingOrder) ∧
    (∀ (σ : State) (feed acc round_id : Nat) (o : OracleStatus),
      mlookup (feed, acc) σ.oracleStati = some o →
      o.starting_round ≤ round_id →
      (∀ e, o.ending_round = some e → round_id ≤ e) →
      (∀ l, o.last_reported_round = some l → l < round_id) →
      ensure_round_valid_for σ feed acc round_id = none) ∧
    (∀ (σ σ' : State) (oracle feed_id round_id submission now round_id' submission' now' : Nat),
      submit σ oracle feed_id round_id submission now = (σ', none) →
      round_id' ≤ round_id →
      (submit σ' oracle feed_id round_id' submission' now').2 ≠ none) := by
  refine ⟨?_, ?_, ?_, ?_, ?_, ?_⟩
  · intro σ feed acc round_id h
    simp [ensure_round_valid_for, h]
  · intro σ feed acc round_id o h1 h2
    have hn : ¬ o.starting_round ≤ round_id := by omega
    simp [ensure_round_valid_for, h1, hn]
  · intro σ feed acc round_id e o h1 h2 h3 h4
    have hd : decide (round_id ≤ e) = false := decide_eq_false (by omega)
    simp [ensure_round_valid_for, h1, h2, h3, hd]
  · intro σ feed acc round_id l o h1 h2 hend h3 h4
    have hd : decide (l < round_id) = false := decide_eq_false (by omega)
    rcases he : o.ending_round with _ | e
    · simp [ensure_round_valid_for, h1, h2, he, h3, hd]
    · have hee : decide (round_id ≤ e) = true := decide_eq_true (hend e he)
      simp [ensure_round_valid_for, h1, h2, he, hee, h3, hd]
  · intro σ feed acc round_id o h1 h2 hend hlast
    rcases he : o.ending_round with _ | e
    · rcases hl : o.last_reported_round with _ | l
      · simp [ensure_round_valid_for, h1, h2, he, hl]
      · have hd : decide (l < round_id) = true := decide_eq_true (hlast l hl)
        simp [ensure_round_valid_for, h1, h2, he, hl, hd]
    · have hee : decide (round_id ≤ e) = true := decide_eq_true (hend e he)
      rcases hl : o.last_reported_round with _ | l
      · simp [ensure_round_valid_for, h1, h2, he, hee, hl]
      · have hd : decide (l < round_id) = true := decide_eq_true (hlast l hl)
        simp [ensure_round_valid_for, h1, h2, he, hee, hl, hd]
  · intro σ σ' oracle feed_id round_id submission now round_id' submission' now' hok hle
    obtain ⟨ost', hst, hlr⟩ := submit_ok_status σ σ' oracle feed_id round_id submission now hok
    have hblock := ensure_last_reported_blocks σ' feed_id oracle round_id' round_id ost' hst hlr hle
    rcases he : ensure_round_valid_for σ' feed_id oracle round_id' with _ | e
    · exact absurd he hblock
    · unfold submit
      rw [he]
      simp

/-- C7 witness: the cascade instantiated on a status enabled for rounds 2–5
with `last_reported_round = 3`, and the reporting-order consequence on a
successful concrete submission for round 2 followed by a second attempt at
the same round. -/
theorem C7_eligibility_cascade_witness :
    ensure_round_valid_for emptyState 0 2 1 = some Error.NotOracle ∧
    ensure_round_valid_for stateC7 0 2 1 = some Error.OracleNotEnabled ∧
    ensure_round_valid_for stateC7 0 2 6 = some Error.OracleDisabled ∧
    ensure_round_valid_for stateC7 0 2 3 = some Error.ReportingOrder ∧
    ensure_round_valid_for stateC7 0 2 4 = none ∧
    (submit (submit stateSC 3 0 2 42 2).1 3 0 2 42 3).2 ≠ none :=
  ⟨C7_eligibility_cascade.1 emptyState 0 2 1 (by decide),
   C7_eligibility_cascade.2.1 stateC7 0 2 1 ostB (by decide) (by decide),
   C7_eligibility_cascade.2.2.1 stateC7 0 2 6 5 ostB (by decide) (by decide) (by decide)
     (by decide),
   C7_eligibility_cascade.2.2.2.1 stateC7 0 2 3 3 ostB (by decide) (by decide)
     (fun e he => by injection he with h; omega) (by decide) (by decide),
   C7_eligibility_cascade.2.2.2.2.1 stateC7 0 2 4 ostB (by decide) (by decide)
     (fun e he => by injection he with h; omega)
     (fun l hl => by injection hl with h; omega),
   C7_eligibility_cascade.2.2.2.2.2 stateSC (submit stateSC 3 0 2 42 2).1 3 0 2 42 2 2 42 3
     (by decide) (by decide)⟩

theorem close_timed_out_round_error (σ : State) (f t n : Nat) :
    (close_timed_out_round σ f t n).2 = none ∨
    (close_timed_out_round σ f t n).2 = some Error.RoundNotFound := by
  unfold close_timed_out_round
  dsimp only
  repeat' split
  all_goals simp

theorem initialize_round_error (σ : State) (fid : Nat) (f : FeedConfig) (nr now : Nat) :
    (initialize_round σ fid f nr now).2 = none ∨
    (initialize_round σ fid f nr now).2 = some Error.RoundNotFound := by
  unfold initialize_round
  dsimp only
  by_cases ht : timed_out σ fid (nr - 1) now = true
  · rw [if_pos ht]
    rcases hc : close_timed_out_round σ fid (nr - 1) now with ⟨σ', e⟩
    have hcl := close_timed_out_round_error σ fid (nr - 1) now
    rw [hc] at hcl
    cases e
    · left
      rfl
    · rcases hcl with hcl | hcl
      · exact absurd hcl (by simp)
      · right
        dsimp only
        exact hcl
  · rw [if_neg ht]
    left
    rfl

/-- C8: `request_new_round` fails with `NotAuthorizedRequester` for an account
with no `Requester` record; for an account with a record (when the feed exists
and the supersedability gate passes without overflow) it fails with
`CannotRequestRoundYet` exactly when the request is not the account's first
(`last_started_round` set) and the candidate round `reporting_round + 1` is
not strictly beyond `last_started_round + delay`. -/
theorem C8_requester_gate :
    (∀ (σ : State) (sender feed_id now : Nat),
      mlookup (feed_id, sender) σ.requesters = none →
      request_new_round σ sender feed_id now = (σ, some Error.NotAuthorizedRequester)) ∧
    (∀ (σ : State) (sender feed_id now : Nat) (rq : Requester) (feed : FeedConfig),
      mlookup (feed_id, sender) σ.requesters = some rq →
      mlookup feed_id σ.feeds = some feed →
      (feed.reporting_round = 0 ∨
        ∃ round : Round, mlookup (feed_id, feed.reporting_round) σ.rounds = some round ∧
          (round.updated_at.isSome = true ∨
           timed_out σ feed_id feed.reporting_round now = true)) →
      feed.reporting_round + 1 ≤ RMAX →
      rq.last_started_round.getD 0 + rq.delay ≤ RMAX →
      ((request_new_round σ sender feed_id now).2 = some Error.CannotRequestRoundYet ↔
        ¬ (rq.last_started_round = none ∨
           rq.last_started_round.getD 0 + rq.delay < feed.reporting_round + 1))) := by
  constructor
  · intro σ sender feed_id now h
    simp [request_new_round, h]
  · intro σ sender feed_id now rq feed h1 h2 h3 h4 h5
    unfold request_new_round
    rw [h1, h2]
    dsimp only
    obtain ⟨b, hb, hbtrue⟩ : ∃ b : Bool,
        (if feed.reporting_round = 0 then some true
         else match mlookup (feed_id, feed.reporting_round) σ.rounds with
           | none => none
           | some round => some round.updated_at.isSome) = some b ∧
        (b = true ∨ timed_out σ feed_id feed.reporting_round now = true) := by
      rcases h3 with h0 | ⟨rd, hrd, hsup⟩
      · exact ⟨true, by rw [if_pos h0], Or.inl rfl⟩
      · by_cases h0 : feed.reporting_round = 0
        · exact ⟨true, by rw [if_pos h0], Or.inl rfl⟩
        · refine ⟨rd.updated_at.isSome, ?_, hsup⟩
          rw [if_neg h0, hrd]
    rw [hb]
    dsimp only
    rw [if_neg (not_not_intro hbtrue)]
    rw [show checkedAddR feed.reporting_round 1 = some (feed.reporting_round + 1) from by
      simp [checkedAddR, h4]]
    dsimp only
    rw [show checkedAddR (rq.last_started_round.getD 0) rq.delay =
        some (rq.last_started_round.getD 0 + rq.delay) from by simp [checkedAddR, h5]]
    dsimp only
    by_cases hc : rq.last_started_round = none ∨
        rq.last_started_round.getD 0 + rq.delay < feed.reporting_round + 1
    · rw [if_neg (not_not_intro hc)]
      constructor
      · intro habs
        exfalso
        rcases hi : initialize_round σ feed_id feed (feed.reporting_round + 1) now
          with ⟨σ'', e⟩
        have hin := initialize_round_error σ feed_id feed (feed.reporting_round + 1) now
        rw [hi] at habs hin
        cases e
        · exact Option.noConfusion habs
        · rename_i e
          dsimp only at habs
          injection habs with h2
          subst h2
          rcases hin with hin | hin
          · exact Option.noConfusion hin
          · exact Error.noConfusion (Option.some.inj hin)
      · intro hn
        exact absurd hc hn
    · rw [if_pos hc]
      simp [hc]

/-- C8 witness: with no requester record the call fails
`NotAuthorizedRequester`; with `delay = 2`, `last_started_round = some 1` and
reporting round 2 (answered), the candidate round 3 is not beyond `1 + 2` and
the call fails `CannotRequestRoundYet`. -/
theorem C8_requester_gate_witness :
    request_new_round emptyState 9 0 2 = (emptyState, some Error.NotAuthorizedRequester) ∧
    (request_new_round stateR 9 0 2).2 = some Error.CannotRequestRoundYet :=
  ⟨C8_requester_gate.1 emptyState 9 0 2 (by decide),
   (C8_requester_gate.2 stateR 9 0 2 { delay := 2, last_started_round := some 1 } cfgR
      (by decide) (by decide)
      (Or.inr ⟨{ started_at := 1, answer := some 5, updated_at := some 1,
                 answered_in_round := some 2 }, by decide, Or.inl (by decide)⟩)
      (by decide) (by decide)).mpr (by decide)⟩

/-- C2 amended: only the `request_new_round` path enforces supersedability.
With a requester record and the feed present, when the current reporting round
is nonzero, exists, has `updated_at` unset (no finalized answer) and is not
timed out, `request_new_round` fails with `RoundNotSupersedable` and leaves
the state unchanged. (The `submit` path performs no such check — see the
counterexample — so an eligible oracle can open round N+1 even when round N is
neither answered nor timed out.) -/
theorem C2_request_supersedable
    (σ : State) (sender feed_id now : Nat) (rq : Requester) (feed : FeedConfig)
    (round : Round)
    (h1 : mlookup (feed_id, sender) σ.requesters = some rq)
    (h2 : mlookup feed_id σ.feeds = some feed)
    (h0 : feed.reporting_round ≠ 0)
    (hrd : mlookup (feed_id, feed.reporting_round) σ.rounds = some round)
    (hupd : round.updated_at = none)
    (htim : timed_out σ feed_id feed.reporting_round now = false) :
    request_new_round σ sender feed_id now = (σ, some Error.RoundNotSupersedable) := by
  unfold request_new_round
  rw [h1, h2]
  dsimp only
  rw [if_neg h0, hrd]
  dsimp only
  rw [if_pos (by simp [hupd, htim])]

/-- C2 witness: in `stateSC` at block 2, reporting round 1 exists with
`updated_at = none` and is not timed out, and the requester 9's call fails
with `RoundNotSupersedable`. -/
theorem C2_request_supersedable_witness :
    request_new_round stateSC 9 0 2 = (stateSC, some Error.RoundNotSupersedable) :=
  C2_request_supersedable stateSC 9 0 2 { delay := 2, last_started_round := none } cfgSC
    { started_at := 1, answer := none, updated_at := none, answered_in_round := none }
    (by decide) (by decide) (by decide) (by decide) (by decide) (by decide)

theorem pruneLoop_rounds (σ : State) (fid lo n : Nat) (g r : Nat) :
    mlookup (g, r) (pruneLoop σ fid lo n).rounds =
      if g = fid ∧ lo ≤ r ∧ r < lo + n then none else mlookup (g, r) σ.rounds := by
  induction n generalizing σ lo with
  | zero =>
    have hc : ¬ (g = fid ∧ lo ≤ r ∧ r < lo + 0) := by
      rintro ⟨_, h1, h2⟩
      omega
    rw [show pruneLoop σ fid lo 0 = σ from rfl, if_neg hc]
  | succ n ih =>
    rw [show pruneLoop σ fid lo (n + 1) =
      pruneLoop { σ with rounds := mremove (fid, lo) σ.rounds,
                         details := mremove (fid, lo) σ.details } fid (lo + 1) n from rfl]
    rw [ih]
    dsimp only
    rw [mlookup_mremove]
    simp only [Prod.mk.injEq]
    split_ifs <;> first | rfl | omega

theorem pruneLoop_details (σ : State) (fid lo n : Nat) (g r : Nat) :
    mlookup (g, r) (pruneLoop σ fid lo n).details =
      if g = fid ∧ lo ≤ r ∧ r < lo + n then none else mlookup (g, r) σ.details := by
  induction n generalizing σ lo with
  | zero =>
    have hc : ¬ (g = fid ∧ lo ≤ r ∧ r < lo + 0) := by
      rintro ⟨_, h1, h2⟩
      omega
    rw [show pruneLoop σ fid lo 0 = σ from rfl, if_neg hc]
  | succ n ih =>
    rw [show pruneLoop σ fid lo (n + 1) =
      pruneLoop { σ with rounds := mremove (fid, lo) σ.rounds,
                         details := mremove (fid, lo) σ.details } fid (lo + 1) n from rfl]
    rw [ih]
    dsimp only
    rw [mlookup_mremove]
    simp only [Prod.mk.injEq]
    split_ifs <;> first | rfl | omega

/-- C5 amended: `prune` (with `first > 0`, `keep > first`, the owner calling,
and a known `first_valid_round`) proceeds if and only if
`latest_round − first > retention_window` (strictly — not `≥` as claimed),
failing with `NothingToPrune` otherwise; when it proceeds it clamps `keep`
down to `min(keep, latest_round − retention_window)`, deletes the Round and
RoundDetails entries exactly for the round ids in `[first, clamped keep)`, and
sets `first_valid_round` to `max(first_valid_round, clamped keep)`. -/
theorem C5_prune_amended
    (window : Nat) (σ : State) (sender feed_id first keep : Nat) (feed : FeedConfig)
    (fv : Nat)
    (hf : 0 < first) (hk : first < keep)
    (hfeed : mlookup feed_id σ.feeds = some feed)
    (howner : feed.owner = sender)
    (hfv : feed.first_valid_round = some fv) :
    (feed.latest_round - first ≤ window →
      prune window σ sender feed_id first keep = (σ, some Error.NothingToPrune)) ∧
    (window < feed.latest_round - first →
      (prune window σ sender feed_id first keep).2 = none ∧
      (∀ r, first ≤ r → r < min (feed.latest_round - window) keep →
        mlookup (feed_id, r) (prune window σ sender feed_id first keep).1.rounds = none ∧
        mlookup (feed_id, r) (prune window σ sender feed_id first keep).1.details = none) ∧
      (∀ g r, ¬ (g = feed_id ∧ first ≤ r ∧ r < min (feed.latest_round - window) keep) →
        mlookup (g, r) (prune window σ sender feed_id first keep).1.rounds =
          mlookup (g, r) σ.rounds ∧
        mlookup (g, r) (prune window σ sender feed_id first keep).1.details =
          mlookup (g, r) σ.details) ∧
      mlookup feed_id (prune window σ sender feed_id first keep).1.feeds =
        some { feed with
                first_valid_round := some (max (min (feed.latest_round - window) keep) fv) }) := by
  unfold prune
  rw [if_neg (not_not_intro hf), if_neg (not_not_intro hk), hfeed]
  dsimp only
  rw [if_neg (not_not_intro howner), hfv]
  dsimp only
  constructor
  · intro hle
    rw [if_pos (by omega)]
  · intro hgt
    rw [if_neg (not_not_intro hgt)]
    dsimp only
    refine ⟨rfl, ?_, ?_, ?_⟩
    · intro r hr1 hr2
      constructor
      · rw [pruneLoop_rounds, if_pos ⟨rfl, hr1, by omega⟩]
      · rw [pruneLoop_details, if_pos ⟨rfl, hr1, by omega⟩]
    · intro g r h
      have hcond : ¬ (g = feed_id ∧ first ≤ r ∧
          r < first + (min (feed.latest_round - window) keep - first)) := by
        rintro ⟨hg, h1, h2⟩
        exact h ⟨hg, h1, by omega⟩
      constructor
      · rw [pruneLoop_rounds, if_neg hcond]
      · rw [pruneLoop_details, if_neg hcond]
    · simp [mlookup_minsert, Nat.max_comm]

/-- C5 witness: with retention window 3, `latest_round = 8`,
`first_valid_round = some 1` and all rounds 0–8 present, pruning
`first = 1, keep = 5` succeeds, deletes round 2, keeps round 6, and advances
`first_valid_round`. -/
theorem C5_prune_amended_witness :
    (prune 3 state8 1 0 1 5).2 = none ∧
    mlookup (0, 2) (prune 3 state8 1 0 1 5).1.rounds = none ∧
    mlookup (0, 6) (prune 3 state8 1 0 1 5).1.rounds = mlookup (0, 6) state8.rounds ∧
    mlookup 0 (prune 3 state8 1 0 1 5).1.feeds =
      some { cfg8 with
              first_valid_round := some (max (min (cfg8.latest_round - 3) 5) 1) } := by
  have h := C5_prune_amended 3 state8 1 0 1 5 cfg8 1 (by decide) (by decide) (by decide)
    (by decide) (by decide)
  have h2 := h.2 (by decide)
  exact ⟨h2.1, (h2.2.1 2 (by decide) (by decide)).1, (h2.2.2.1 0 6 (by decide)).1,
    h2.2.2.2⟩

theorem submit_nonopening_eq
    (σ : State) (oracle feed_id round_id submission now : Nat)
    (feed : FeedConfig) (ost : OracleStatus) (d : RoundDetails) (r : Round)
    (om : OracleMeta)
    (hens : ensure_round_valid_for σ feed_id oracle round_id = none)
    (hfeed : mlookup feed_id σ.feeds = some feed)
    (hlo : feed.submission_value_bounds.1 ≤ submission)
    (hhi : submission ≤ feed.submission_value_bounds.2)
    (hrr : feed.reporting_round + 1 ≤ RMAX)
    (host : mlookup (feed_id, oracle) σ.oracleStati = some ost)
    (hdel : ost.last_started_round.getD 0 + feed.restart_delay + 1 ≤ RMAX)
    (hnotnext : round_id ≠ feed.reporting_round + 1)
    (hd : mlookup (feed_id, round_id) σ.details = some d)
    (hr : mlookup (feed_id, round_id) σ.rounds = some r)
    (hpay : d.payment_amount ≤ σ.fundFree)
    (hom : mlookup oracle σ.oracles = some om)
    (hw : om.withdrawable + d.payment_amount ≤ BMAX) :
    submit σ oracle feed_id round_id submission now =
      (submitResult σ oracle feed_id round_id submission now feed ost d r om, none) := by
  unfold submit
  rw [hens, hfeed]
  dsimp only
  rw [if_neg (not_not_intro hlo), if_neg (not_not_intro hhi)]
  rw [show checkedAddR feed.reporting_round 1 = some (feed.reporting_round + 1) from by
    simp [checkedAddR, hrr]]
  dsimp only
  rw [host]
  dsimp only
  rw [show checkedAddR (ost.last_started_round.getD 0) feed.restart_delay =
      some (ost.last_started_round.getD 0 + feed.restart_delay) from by
    simp only [checkedAddR, if_pos (by omega : ost.last_started_round.getD 0 +
      feed.restart_delay ≤ RMAX)]]
  dsimp only
  rw [show checkedAddR (ost.last_started_round.getD 0 + feed.restart_delay) 1 =
      some (ost.last_started_round.getD 0 + feed.restart_delay + 1) from by
    simp only [checkedAddR, if_pos hdel]]
  dsimp only
  unfold submitBody openStage
  rw [if_neg (fun hc => hnotnext hc.1)]
  dsimp only
  rw [hd]
  dsimp only
  unfold answerStage
  dsimp only
  by_cases hmin : d.submission_count_bounds.1 ≤ (d.submissions ++ [submission]).length
  · rw [if_pos hmin, hr]
    dsimp only
    rw [if_pos hpay]
    rw [hom]
    dsimp only
    rw [show checkedAddB om.withdrawable d.payment_amount =
        some (om.withdrawable + d.payment_amount) from by simp [checkedAddB, hw]]
    dsimp only
    rw [List.length_insertionSort]
    by_cases hmax : (d.submissions ++ [submission]).length < d.submission_count_bounds.2
    · rw [if_pos hmax]
      simp only [submitResult, if_pos hmin, if_pos hmax]
    · rw [if_neg hmax]
      simp only [submitResult, if_pos hmin, if_neg hmax]
  · rw [if_neg hmin]
    dsimp only
    rw [if_pos hpay]
    rw [hom]
    dsimp only
    rw [show checkedAddB om.withdrawable d.payment_amount =
        some (om.withdrawable + d.payment_amount) from by simp [checkedAddB, hw]]
    dsimp only
    by_cases hmax : (d.submissions ++ [submission]).length < d.submission_count_bounds.2
    · rw [if_pos hmax]
      simp only [submitResult, if_neg hmin, if_pos hmax]
    · rw [if_neg hmax]
      simp only [submitResult, if_neg hmin, if_neg hmax]

/-- C10: a round's answer is not write-once. For every accepted non-opening
submission that brings the submission count to at least the snapshotted
minimum — whether or not the round already has an answer — `submit`
recomputes the answer as the median of all submissions accumulated so far,
overwrites the round's `answer`, `updated_at` and `answered_in_round`, and
sets the feed's `latest_round` to the round id. -/
theorem C10_answer_recomputed
    (σ : State) (oracle feed_id round_id submission now : Nat)
    (feed : FeedConfig) (ost : OracleStatus) (d : RoundDetails) (r : Round)
    (om : OracleMeta)
    (hens : ensure_round_valid_for σ feed_id oracle round_id = none)
    (hfeed : mlookup feed_id σ.feeds = some feed)
    (hlo : feed.submission_value_bounds.1 ≤ submission)
    (hhi : submission ≤ feed.submission_value_bounds.2)
    (hrr : feed.reporting_round + 1 ≤ RMAX)
    (host : mlookup (feed_id, oracle) σ.oracleStati = some ost)
    (hdel : ost.last_started_round.getD 0 + feed.restart_delay + 1 ≤ RMAX)
    (hnotnext : round_id ≠ feed.reporting_round + 1)
    (hd : mlookup (feed_id, round_id) σ.details = some d)
    (hr : mlookup (feed_id, round_id) σ.rounds = some r)
    (hpay : d.payment_amount ≤ σ.fundFree)
    (hom : mlookup oracle σ.oracles = some om)
    (hw : om.withdrawable + d.payment_amount ≤ BMAX)
    (hmin : d.submission_count_bounds.1 ≤ (d.submissions ++ [submission]).length) :
    (submit σ oracle feed_id round_id submission now).2 = none ∧
    mlookup (feed_id, round_id)
      (submit σ oracle feed_id round_id submission now).1.rounds =
      some { r with answer := some (median (d.submissions ++ [submission])),
                    updated_at := some now, answered_in_round := some round_id } ∧
    (mlookup feed_id (submit σ oracle feed_id round_id submission now).1.feeds).map
      FeedConfig.latest_round = some round_id := by
  rw [submit_nonopening_eq σ oracle feed_id round_id submission now feed ost d r om
    hens hfeed hlo hhi hrr host hdel hnotnext hd hr hpay hom hw]
  have hlen : (d.submissions ++ [submission]).length = d.submissions.length + 1 := by
    simp
  rw [hlen] at hmin
  refine ⟨rfl, ?_, ?_⟩
  · simp [submitResult, hmin, median_insertionSort]
  · simp [submitResult, hmin]

/-- C10 witness: round 1 of `stateC10` already has answer 10 from the single
submission `[10]`; a further submission of 42 recomputes the answer as
`median [10, 42] = 26`, overwriting the previous one. -/
theorem C10_answer_recomputed_witness :
    (mlookup (0, 1) stateC10.rounds).map Round.answer = some (some 10) ∧
    median ([10] ++ [42]) = 26 ∧
    (submit stateC10 3 0 1 42 2).2 = none ∧
    mlookup (0, 1) (submit stateC10 3 0 1 42 2).1.rounds =
      some { started_at := 1, answer := some (median ([10] ++ [42])),
             updated_at := some 2, answered_in_round := some 1 } ∧
    (mlookup 0 (submit stateC10 3 0 1 42 2).1.feeds).map FeedConfig.latest_round =
      some 1 := by
  have h := C10_answer_recomputed stateC10 3 0 1 42 2 cfgSC freshStatus
    ⟨[10], (1, 3), 5, 10⟩ ⟨1, some 10, some 1, some 1⟩ ⟨0, 4, none⟩
    (by decide) (by decide) (by decide) (by decide) (by decide) (by decide) (by decide)
    (by decide) (by decide) (by decide) (by decide) (by decide) (by decide) (by decide)
  exact ⟨by decide, by decide, h.1, h.2.1, h.2.2⟩

end ChainlinkFeed
